import Mathlib

/-!
# Verification of the 2Password vault core and frontend API layer

Shallow embedding, in Lean 4, of the parts of the 2Password repository that
the specification's claims are about:

* the TypeScript frontend layer (`src/utils/api.ts`, `src/App.tsx`,
  `src/components/VaultSetup.tsx`, the password modal) is embedded directly
  from the source;
* the Rust cryptographic core (cipher, secret sharing, vault manager,
  atomic file writes) is referenced by the frontend but its source is not in
  the repository snapshot, so those components are modelled from the
  specification; each such definition is marked `Modelled from the spec:`.

Bytes are `Nat` values below 256, byte strings are `List Nat`.
-/

set_option autoImplicit false

namespace TwoPassword

/-! ## JavaScript string and value model -/

/-- A JSON-like value as it appears in a Tauri `invoke` payload. -/
inductive JsValue where
  | str (s : String)
  | num (n : Nat)
  | bool (b : Bool)
  | strList (xs : List String)
  | undef
  deriving DecidableEq, Repr

/-- Whitespace as recognised by JavaScript `String.prototype.trim`: the
ECMAScript WhiteSpace and LineTerminator productions -- tab, LF, VT, FF,
CR, space, NBSP, BOM, every other Space_Separator code point (U+1680,
U+2000 through U+200A, U+202F, U+205F, U+3000), LS and PS. -/
def isJsWhitespace (c : Char) : Bool :=
  c = ' ' || c = '\t' || c = '\n' || c = '\r' ||
  c = '\x0b' || c = '\x0c' || c = '\u00A0' || c = '\uFEFF' ||
  c = '\u1680' || (0x2000 <= c.toNat && c.toNat <= 0x200A) ||
  c = '\u202F' || c = '\u205F' || c = '\u3000' ||
  c = '\u2028' || c = '\u2029'

/-- JavaScript `String.prototype.trim` on a list of characters: drop
whitespace from the front, then from the back. -/
def jsTrim (s : List Char) : List Char :=
  ((s.dropWhile isJsWhitespace).reverse.dropWhile isJsWhitespace).reverse

/-! ## `TauriAPIClient.add_entry` (src/src/utils/api.ts, lines 42-50)

The TypeScript method signature is
`add_entry(title, username, password, url?, notes?)` and its body invokes
the backend command with the payload `{ title, username, password, url, notes }`.
There is no `tags` parameter and no `tags` key in the payload. -/

/-- The payload that `TauriAPIClient.add_entry` passes to
`invoke('add_entry', ...)`, embedded field by field from api.ts. -/
def add_entry_invokePayload (title username password : String)
    (url notes : Option String) : List (String × JsValue) :=
  [("title", JsValue.str title),
   ("username", JsValue.str username),
   ("password", JsValue.str password),
   ("url", (url.map JsValue.str).getD JsValue.undef),
   ("notes", (notes.map JsValue.str).getD JsValue.undef)]

/-- A call of `add_entry` from `addSampleEntries` (src/unnamed/part_008,
lines 65-79) passes six arguments `(title, username, password, url, notes,
tags)`.  JavaScript ignores arguments beyond a function's declared
parameters, so the sixth argument `tags` does not reach the payload. -/
def addSampleEntries_call (title username password : String)
    (url notes : Option String) (tags : List String) :
    List (String × JsValue) :=
  add_entry_invokePayload title username password url notes

/-- In contrast, `App.handleAddEntry` (src/src/App.tsx, lines 129-147) invokes
the same backend command with `{ title, username, password, url, notes, tags }`,
showing that the backend command does accept a `tags` field. -/
def handleAddEntry_invokePayload (title username password : String)
    (url notes : Option String) (tags : Option (List String)) :
    List (String × JsValue) :=
  [("title", JsValue.str title),
   ("username", JsValue.str username),
   ("password", JsValue.str password),
   ("url", (url.map JsValue.str).getD JsValue.undef),
   ("notes", (notes.map JsValue.str).getD JsValue.undef),
   ("tags", (tags.map JsValue.strList).getD JsValue.undef)]

/-! ## `TauriAPIClient.generate_password` (src/src/utils/api.ts, lines 61-77) -/

/-- Embedding of `PasswordGeneratorConfig` (src/src/types/index.ts, lines 49-55): all
fields optional, `none` meaning the property is absent / `undefined`. -/
structure PasswordGeneratorConfig where
  length : Option Nat
  include_symbols : Option Bool
  include_numbers : Option Bool
  include_uppercase : Option Bool
  include_lowercase : Option Bool
  deriving DecidableEq, Repr

/-- The argument record of the backend `generate_password` command. -/
structure GeneratePasswordArgs where
  length : Nat
  include_symbols : Bool
  include_numbers : Bool
  include_uppercase : Bool
  include_lowercase : Bool
  deriving DecidableEq, Repr

/-- The method `TauriAPIClient.generate_password` destructures its config with JS
defaults (`length = 16`, all four flags `true`; a default fires exactly when
the property is `undefined`) and invokes the backend with the result. -/
def generate_password_invokeArgs (config : PasswordGeneratorConfig) :
    GeneratePasswordArgs :=
  { length := config.length.getD 16
    include_symbols := config.include_symbols.getD true
    include_numbers := config.include_numbers.getD true
    include_uppercase := config.include_uppercase.getD true
    include_lowercase := config.include_lowercase.getD true }

/-! ## `App.handleSearch` (src/src/App.tsx, lines 178-192) -/

/-- The backend command a search dispatch results in. -/
inductive SearchAction where
  | getAllEntries
  | searchEntries (query : List Char)
  deriving DecidableEq, Repr

/-- The handler `App.handleSearch`: if `query.trim() === ""` it calls `loadEntries`
(which invokes `get_all_entries`), otherwise it invokes `search_entries`
with the original, untrimmed query. -/
def handleSearch (query : List Char) : SearchAction :=
  if jsTrim query = [] then SearchAction.getAllEntries
  else SearchAction.searchEntries query

/-! ## `VaultSetup.handleCreateVault` (src/src/components/VaultSetup.tsx,
lines 77-107) and `PasswordModal.handleSubmit` (src/unnamed/part_001) -/

/-- Embedding of `CreateVaultData` (src/src/types/index.ts). -/
structure CreateVaultData where
  path : String
  masterPassword : String
  confirmPassword : String
  enableTouchId : Bool
  deriving DecidableEq, Repr

/-- Outcome of the vault-creation submit handler: either an error message is
set, or the `create_vault` backend command is invoked with a path and
password. -/
inductive VaultSetupAction where
  | setErrorMsg (msg : String)
  | invokeCreateVault (path password : String)
  deriving DecidableEq, Repr

/-- The handler `VaultSetup.handleCreateVault` rejects with "Passwords do not match"
when the confirmation differs, then with "Password must be at least 8
characters long" when the password is shorter than 8, and only otherwise
invokes `create_vault` with the chosen path and master password. -/
def handleCreateVault (d : CreateVaultData) : VaultSetupAction :=
  if d.masterPassword ≠ d.confirmPassword then
    VaultSetupAction.setErrorMsg "Passwords do not match"
  else if d.masterPassword.length < 8 then
    VaultSetupAction.setErrorMsg "Password must be at least 8 characters long"
  else
    VaultSetupAction.invokeCreateVault d.path d.masterPassword

/-- In `PasswordModal.handleSubmit` (src/unnamed/part_001, lines 47-57): the
submitted password reaches `onSubmit` only when it has at least `minLength`
characters; otherwise an error message is set and `none` is delivered.
In the create-vault flow of src/unnamed/part_008 the modal is rendered with
`minLength = 8`. -/
def passwordModal_handleSubmit (minLength : Nat) (password : String) :
    Option String :=
  if password.length < minLength then none else some password

/-! ## Secret sharing (2-of-3 threshold)

The Rust implementation of the threshold scheme is not in the repository
snapshot (only frontend callers are), so it is modelled from the spec. -/

/-- Modelled from the spec: the source of the Rust secret-sharing module is
missing; section 4.4 prescribes a Shamir scheme over a finite field with
threshold 2 and 3 shares.  We take the field to be `ZMod 257` (one field
element per secret byte; the spec leaves the exact field to the
implementer). -/
abbrev ShareField : Type := ZMod 257

instance : Fact (Nat.Prime 257) := ⟨by norm_num⟩

/-- The `share_id` of a recovery share: which factor produced it (spec §3,
RecoveryShare). -/
inductive ShareId where
  | password
  | biometric
  | backup
  deriving DecidableEq, Repr

/-- The x-coordinate at which each share's polynomial evaluation is taken. -/
def ShareId.xCoord : ShareId → ShareField
  | ShareId.password => 1
  | ShareId.biometric => 2
  | ShareId.backup => 3

/-- Modelled from the spec: a recovery share is a polynomial point — the
x-coordinate tagging the factor, and one y-value per secret byte. -/
structure RecoveryShare where
  x : ShareField
  ys : List ShareField
  deriving DecidableEq

/-- Error raised by `reconstruct` when fewer than two usable shares are
supplied (spec §7, `InsufficientShares`). -/
inductive ShamirError where
  | insufficientShares
  deriving DecidableEq, Repr

/-- Evaluate the degree-1 sharing polynomials at `x`: byte `i` of the
secret has polynomial `secret[i] + coeffs[i] * X`. -/
def shareAt (secret : List Nat) (coeffs : List ShareField)
    (x : ShareField) : RecoveryShare :=
  ⟨x, List.zipWith (fun (s : Nat) (c : ShareField) =>
    (Nat.cast s : ShareField) + c * x) secret coeffs⟩

/-- Modelled from the spec: `split(secret[32])` produces the password,
biometric and backup shares; `coeffs` is the fresh randomness (one field
coefficient per byte) drawn from Secure Random. -/
def split (secret : List Nat) (coeffs : List ShareField) :
    RecoveryShare × RecoveryShare × RecoveryShare :=
  (shareAt secret coeffs ShareId.password.xCoord,
   shareAt secret coeffs ShareId.biometric.xCoord,
   shareAt secret coeffs ShareId.backup.xCoord)

/-- Lagrange interpolation at 0 of a degree-1 polynomial through
`(x1, y1)` and `(x2, y2)`. -/
def lagrange0 (x1 x2 y1 y2 : ShareField) : ShareField :=
  (y1 * x2 - y2 * x1) * (x2 - x1)⁻¹

/-- Modelled from the spec: `reconstruct` needs at least two shares with
distinct x-coordinates; with fewer it fails with `InsufficientShares`
instead of returning a value.  On success it returns the secret bytes. -/
def reconstruct (shares : List RecoveryShare) :
    Except ShamirError (List Nat) :=
  match shares with
  | s1 :: s2 :: _ =>
      if s1.x = s2.x then Except.error ShamirError.insufficientShares
      else Except.ok
        ((List.zipWith (fun y1 y2 => lagrange0 s1.x s2.x y1 y2) s1.ys s2.ys).map
          ZMod.val)
  | _ => Except.error ShamirError.insufficientShares

/-- Interpolating back through two evaluations of the sharing polynomial at
distinct points recovers the constant term. -/
theorem lagrange0_shareAt (s c x1 x2 : ShareField) (hx : x1 ≠ x2) :
    lagrange0 x1 x2 (s + c * x1) (s + c * x2) = s := by
  have h : x2 - x1 ≠ 0 := sub_ne_zero.mpr (Ne.symm hx)
  unfold lagrange0
  field_simp
  ring

/-- List-level form of `lagrange0_shareAt`: reconstructing byte-wise from
two share value lists built over the same secret and coefficients. -/
theorem zipWith_lagrange0_shareAt (x1 x2 : ShareField) (hx : x1 ≠ x2) :
    ∀ (secret : List Nat) (coeffs : List ShareField),
      coeffs.length = secret.length →
      List.zipWith (fun y1 y2 => lagrange0 x1 x2 y1 y2)
        (List.zipWith (fun (s : Nat) (c : ShareField) =>
          (Nat.cast s : ShareField) + c * x1) secret coeffs)
        (List.zipWith (fun (s : Nat) (c : ShareField) =>
          (Nat.cast s : ShareField) + c * x2) secret coeffs) =
      secret.map (fun s => (Nat.cast s : ShareField)) := by
  intro secret
  induction secret with
  | nil => intro coeffs _; simp
  | cons s rest ih =>
    intro coeffs hlen
    cases coeffs with
    | nil => simp at hlen
    | cons c crest =>
      simp only [List.zipWith, List.map]
      refine congrArg₂ _ ?_ ?_
      · exact lagrange0_shareAt s c x1 x2 hx
      · exact ih crest (by simpa using hlen)

/-- Mapping `ZMod.val` over the casts of bytes below 257 recovers the
bytes. -/
theorem map_val_map_cast (secret : List Nat) (hb : ∀ b ∈ secret, b < 257) :
    (secret.map (fun s => (Nat.cast s : ShareField))).map ZMod.val = secret := by
  induction secret with
  | nil => simp
  | cons s rest ih =>
    simp only [List.map, List.cons.injEq]
    constructor
    · exact ZMod.val_cast_of_lt (hb s (List.mem_cons_self s rest))
    · exact ih (fun b hbmem => hb b (List.mem_cons_of_mem s hbmem))

/-! ## Authenticated cipher (AES-256-GCM)

The Rust cipher module is not in the snapshot; modelled from spec §4.3:
`encrypt(key[32], nonce[12], plaintext, aad?) -> ciphertext+tag`, with the
tag authenticating the ciphertext, nonce and associated data under the key,
and `decrypt` verifying the tag before releasing any plaintext. -/

/-- Injective encoding of a byte string into a single natural number, used
to build the model's authentication tag. -/
def encodeList : List Nat → Nat
  | [] => 0
  | a :: l => Nat.pair a (encodeList l) + 1

theorem encodeList_injective : Function.Injective encodeList := by
  intro l1
  induction l1 with
  | nil =>
    intro l2 h
    cases l2 with
    | nil => rfl
    | cons b t => simp [encodeList] at h
  | cons a t ih =>
    intro l2 h
    cases l2 with
    | nil => simp [encodeList] at h
    | cons b t2 =>
      simp only [encodeList, Nat.add_right_cancel_iff] at h
      have hp := Nat.pair_eq_pair.mp h
      exact congrArg₂ _ hp.1 (ih hp.2)

/-- Modelled from the spec: the AES-256-CTR keystream inside GCM.  AES
itself is missing from the snapshot; any fixed function of (key, nonce,
counter) supports the claimed properties, so an explicit mixing function
stands in for the block cipher. -/
def keystream (key nonce : List Nat) (i : Nat) : Nat :=
  (encodeList key * 31 + encodeList nonce * 17 + i * 7 + 13) % 256

/-- XOR a byte string with the keystream starting at counter `i`. -/
def ctrXor (key nonce : List Nat) (i : Nat) : List Nat → List Nat
  | [] => []
  | b :: bs => (b ^^^ keystream key nonce i) :: ctrXor key nonce (i + 1) bs

theorem ctrXor_ctrXor (key nonce : List Nat) :
    ∀ (i : Nat) (bs : List Nat),
      ctrXor key nonce i (ctrXor key nonce i bs) = bs := by
  intro i bs
  induction bs generalizing i with
  | nil => rfl
  | cons b rest ih =>
    simp only [ctrXor, Nat.xor_cancel_right, List.cons.injEq, true_and]
    exact ih (i + 1)

/-- Modelled from the spec: the GHASH-style authentication tag over the
key, nonce, associated data and ciphertext.  The model's tag binds all four
inputs injectively, matching the spec's absolute tamper-detection
requirement. -/
def gcmTag (key nonce aad ct : List Nat) : Nat :=
  encodeList [encodeList key, encodeList nonce, encodeList aad, encodeList ct]

/-- The tag `gcmTag` distinguishes any two inputs differing in nonce or
ciphertext (or key or aad). -/
theorem gcmTag_inj {key nonce aad ct key2 nonce2 aad2 ct2 : List Nat}
    (h : gcmTag key nonce aad ct = gcmTag key2 nonce2 aad2 ct2) :
    key = key2 ∧ nonce = nonce2 ∧ aad = aad2 ∧ ct = ct2 := by
  have h4 := encodeList_injective h
  simp only [List.cons.injEq, and_true] at h4
  exact ⟨encodeList_injective h4.1,
    encodeList_injective h4.2.1,
    encodeList_injective h4.2.2.1,
    encodeList_injective h4.2.2.2⟩

/-- Authentication failure of `decrypt` (spec §4.3 `AuthError`). -/
inductive AuthError where
  | authFailure
  deriving DecidableEq, Repr

/-- Modelled from the spec: `encrypt(key, nonce, plaintext, aad)` returns
the CTR-encrypted ciphertext together with the authentication tag. -/
def encrypt (key nonce plaintext aad : List Nat) : List Nat × Nat :=
  let ct := ctrXor key nonce 0 plaintext
  (ct, gcmTag key nonce aad ct)

/-- Modelled from the spec: `decrypt` recomputes and verifies the tag
before any plaintext is derived; on mismatch it fails with an
authentication error and releases nothing. -/
def decrypt (key nonce : List Nat) (ctTag : List Nat × Nat)
    (aad : List Nat) : Except AuthError (List Nat) :=
  if ctTag.2 = gcmTag key nonce aad ctTag.1 then
    Except.ok (ctrXor key nonce 0 ctTag.1)
  else
    Except.error AuthError.authFailure

/-- Flip bit `k` of the byte at position `i` of a byte string. -/
def flipBit (bs : List Nat) (i k : Nat) : List Nat :=
  bs.set i (bs.getD i 0 ^^^ 2 ^ k)

/-- XOR-ing a nonzero mask into a natural number changes it. -/
theorem xor_pow_ne (a k : Nat) : a ^^^ 2 ^ k ≠ a := by
  intro h
  have h2 : (0 : Nat) = 2 ^ k := by
    have h3 := congrArg (fun x => a ^^^ x) h.symm
    simpa [← Nat.xor_assoc, Nat.xor_self, Nat.zero_xor] using h3
  exact (pow_pos (by norm_num : (0 : Nat) < 2) k).ne' h2.symm

/-- Flipping a bit inside the byte string produces a different string. -/
theorem flipBit_ne (bs : List Nat) (i k : Nat) (hi : i < bs.length) :
    flipBit bs i k ≠ bs := by
  intro h
  have hget : (flipBit bs i k).getD i 0 = bs.getD i 0 := by rw [h]
  rw [flipBit, List.getD_eq_getElem?_getD, List.getElem?_set_self
    (by simpa using hi)] at hget
  simp only [Option.getD_some, List.getD_eq_getElem?_getD] at hget
  rw [List.getElem?_eq_getElem hi] at hget
  exact xor_pow_ne (bs.getD i 0) k (by
    simpa [List.getD_eq_getElem?_getD, List.getElem?_eq_getElem hi] using hget)

/-! ## File system and atomic writes

Modelled from the spec (§4.6, §7): the vault file is written by writing a
temporary file in the same directory, fsync-ing it, and renaming it over
the destination. -/

/-- A file system: paths to optional file contents. -/
def Fs : Type := String → Option (List Nat)

/-- Primitive file-system operations issued by the vault manager. -/
inductive FsOp where
  | writeFile (p : String) (content : List Nat)
  | fsyncFile (p : String)
  | renameFile (src dst : String)

/-- Effect of one primitive operation on the file system.  `rename`
atomically replaces the destination with the source file. -/
def applyOp (fs : Fs) : FsOp → Fs
  | FsOp.writeFile p c => fun q => if q = p then some c else fs q
  | FsOp.fsyncFile _ => fs
  | FsOp.renameFile src dst =>
      fun q => if q = dst then fs src else if q = src then none else fs q

/-- Run a sequence of operations left to right. -/
def runOps (fs : Fs) (ops : List FsOp) : Fs :=
  ops.foldl applyOp fs

/-- Modelled from the spec: the atomic-write sequence — write the full new
content to a temp file, fsync, rename over the destination. -/
def atomicWriteOps (dest tmp : String) (content : List Nat) : List FsOp :=
  [FsOp.writeFile tmp content, FsOp.fsyncFile tmp,
   FsOp.renameFile tmp dest]

/-- A crash after the first `k` operations leaves the file system
`runOps fs (ops.take k)`. -/
def crashAt (fs : Fs) (ops : List FsOp) (k : Nat) : Fs :=
  runOps fs (ops.take k)

/-! ## Vault codec

Modelled from the spec (§4.5, §6): length-delimited layout
`{version, salt[32], kdf params, nonce[12], ciphertext(+tag)}`. -/

/-- The persisted vault file (spec §3 VaultFile).  KDF parameters are
folded into three naturals. -/
structure VaultFile where
  format_version : Nat
  memory_kib : Nat
  iterations : Nat
  parallelism : Nat
  salt : List Nat
  nonce : List Nat
  ciphertext : List Nat
  tag : Nat
  deriving DecidableEq, Repr

/-- Codec-level decode failure (spec §7 `CorruptFormat`) and vault-manager
errors. -/
inductive VaultError where
  | corruptFormat
  | vaultExists
  | vaultNotLoaded
  | wrongPasswordOrCorrupt
  deriving DecidableEq, Repr

/-- The only supported on-disk format version. -/
def supportedFormatVersion : Nat := 1

/-- Modelled from the spec: serialize a vault file, each variable-length
field length-prefixed, fixed-width fields in a fixed order. -/
def encodeVaultFile (vf : VaultFile) : List Nat :=
  vf.format_version :: vf.memory_kib :: vf.iterations :: vf.parallelism ::
    vf.salt.length :: vf.salt ++ vf.nonce.length :: vf.nonce ++
    vf.ciphertext.length :: vf.ciphertext ++ [vf.tag]

/-- Read a length-prefixed chunk: the prefix byte count, then that many
bytes; fails on truncation. -/
def readChunk (bs : List Nat) : Option (List Nat × List Nat) :=
  match bs with
  | [] => none
  | n :: rest =>
      if n ≤ rest.length then some (rest.take n, rest.drop n) else none

/-- Modelled from the spec: decode validates the format version first and
fails with `CorruptFormat` on an unsupported version or a truncated file. -/
def decodeVaultFile (bs : List Nat) : Except VaultError VaultFile :=
  match bs with
  | v :: m :: it :: par :: rest =>
      if v ≠ supportedFormatVersion then Except.error VaultError.corruptFormat
      else
        match readChunk rest with
        | none => Except.error VaultError.corruptFormat
        | some (salt, r1) =>
            match readChunk r1 with
            | none => Except.error VaultError.corruptFormat
            | some (nonce, r2) =>
                match readChunk r2 with
                | none => Except.error VaultError.corruptFormat
                | some (ct, r3) =>
                    match r3 with
                    | [tag] => Except.ok ⟨v, m, it, par, salt, nonce, ct, tag⟩
                    | _ => Except.error VaultError.corruptFormat
  | _ => Except.error VaultError.corruptFormat

/-- Whether a byte string parses as a valid vault file. -/
def isValidVaultFile (bs : List Nat) : Bool :=
  match decodeVaultFile bs with
  | Except.ok _ => true
  | Except.error _ => false

/-! ## Vault manager -/

/-- Modelled from the spec: the unlocked vault manager state — the master
key, the immutable salt and KDF parameters, the serialized entry
collection, the vault path, and a counter of how much Secure Random output
has been consumed (each save draws the next fresh nonce). -/
structure VaultState where
  key : List Nat
  salt : List Nat
  memory_kib : Nat
  iterations : Nat
  parallelism : Nat
  entriesBlob : List Nat
  path : String
  rngCounter : Nat

/-- Modelled from the spec: `save_vault` re-serializes the entries,
draws a fresh nonce from Secure Random (`rng` is the stream of nonces the
CSPRNG produces), re-encrypts, and atomic-writes the encoded file.  It
returns the advanced state and the vault file written. -/
def save_vault (rng : Nat → List Nat) (st : VaultState) :
    VaultState × VaultFile :=
  let nonce := rng st.rngCounter
  let ct := encrypt st.key nonce st.entriesBlob []
  ({ st with rngCounter := st.rngCounter + 1 },
   ⟨supportedFormatVersion, st.memory_kib, st.iterations, st.parallelism,
    st.salt, nonce, ct.1, ct.2⟩)

/-- State after `n` successive `save_vault` calls. -/
def saveIter (rng : Nat → List Nat) (st : VaultState) : Nat → VaultState
  | 0 => st
  | n + 1 => (save_vault rng (saveIter rng st n)).1

/-- The nonce written by the `n`-th `save_vault` call (0-based). -/
def nonceOfSave (rng : Nat → List Nat) (st : VaultState) (n : Nat) :
    List Nat :=
  (save_vault rng (saveIter rng st n)).2.nonce

/-- Modelled from the spec: the write phase of `create_vault` — encrypt an
empty entry collection under a fresh salt and nonce with the spec's
recommended KDF parameters, and atomic-write the encoded file. -/
def createVaultWrite (fs : Fs) (path : String) (master_key : List Nat)
    (salt nonce : List Nat) : Fs :=
  let ct := encrypt master_key nonce [] []
  let vf : VaultFile :=
    ⟨supportedFormatVersion, 65536, 3, 4, salt, nonce, ct.1, ct.2⟩
  runOps fs (atomicWriteOps path (path ++ ".tmp") (encodeVaultFile vf))

/-- Modelled from the spec: `create_vault(path, master_key)` fails with an
error if the path already contains a valid vault file; otherwise it
encrypts an empty entry collection and atomic-writes the encoded file to a
temp path renamed over the destination.  Returns the outcome and the
resulting file system. -/
def create_vault (fs : Fs) (path : String) (master_key : List Nat)
    (salt nonce : List Nat) : Except VaultError Unit × Fs :=
  match fs path with
  | some existing =>
      if isValidVaultFile existing then
        (Except.error VaultError.vaultExists, fs)
      else
        (Except.ok (), createVaultWrite fs path master_key salt nonce)
  | none => (Except.ok (), createVaultWrite fs path master_key salt nonce)

/-! ## Helper lemmas for the search dispatch -/

theorem forall_dropWhile_iff (p : Char → Bool) (q : List Char)
    (h : ∀ x ∈ q.dropWhile p, p x) : ∀ x ∈ q, p x := by
  intro x hx
  have hsplit : x ∈ q.takeWhile p ++ q.dropWhile p := by
    rw [List.takeWhile_append_dropWhile]
    exact hx
  rcases List.mem_append.mp hsplit with h1 | h2
  · exact List.mem_takeWhile_imp h1
  · exact h x h2

/-- The trimmed query is empty exactly when the query is all whitespace. -/
theorem jsTrim_eq_nil_iff (q : List Char) :
    jsTrim q = [] ↔ ∀ c ∈ q, isJsWhitespace c := by
  unfold jsTrim
  rw [List.reverse_eq_nil_iff, List.dropWhile_eq_nil_iff]
  constructor
  · intro h
    refine forall_dropWhile_iff isJsWhitespace q ?_
    intro x hx
    exact h x (List.mem_reverse.mpr hx)
  · intro h x hx
    exact h x ((List.dropWhile_sublist isJsWhitespace).subset
      (List.mem_reverse.mp hx))

/-! ## Claim theorems -/

/-- C1: the claim states that a six-argument `add_entry` call forwards its
`tags` list to the backend.  On the code this fails: the payload built by
`TauriAPIClient.add_entry` for the first `addSampleEntries` call carries
exactly the keys title, username, password, url, notes — no `tags` key —
even though the call supplies the tag list `["email", "personal"]`. -/
theorem add_entry_payload_has_no_tags_key :
    (addSampleEntries_call "Gmail Account" "demo@gmail.com" "SecurePass123!"
      (some "https://gmail.com") (some "Personal email account")
      ["email", "personal"]).map Prod.fst =
      ["title", "username", "password", "url", "notes"] ∧
    "tags" ∉ (addSampleEntries_call "Gmail Account" "demo@gmail.com"
      "SecurePass123!" (some "https://gmail.com")
      (some "Personal email account") ["email", "personal"]).map Prod.fst := by
  constructor
  · rfl
  · decide

/-- C8: `TauriAPIClient.generate_password` invokes the backend with
`length = 16` and all four character-class flags `true` whenever the
corresponding config field is omitted, and passes explicitly supplied
fields through unchanged. -/
theorem generate_password_defaults (cfg : PasswordGeneratorConfig) :
    (cfg.length = none → (generate_password_invokeArgs cfg).length = 16) ∧
    (∀ n, cfg.length = some n → (generate_password_invokeArgs cfg).length = n) ∧
    (cfg.include_symbols = none →
      (generate_password_invokeArgs cfg).include_symbols = true) ∧
    (∀ b, cfg.include_symbols = some b →
      (generate_password_invokeArgs cfg).include_symbols = b) ∧
    (cfg.include_numbers = none →
      (generate_password_invokeArgs cfg).include_numbers = true) ∧
    (∀ b, cfg.include_numbers = some b →
      (generate_password_invokeArgs cfg).include_numbers = b) ∧
    (cfg.include_uppercase = none →
      (generate_password_invokeArgs cfg).include_uppercase = true) ∧
    (∀ b, cfg.include_uppercase = some b →
      (generate_password_invokeArgs cfg).include_uppercase = b) ∧
    (cfg.include_lowercase = none →
      (generate_password_invokeArgs cfg).include_lowercase = true) ∧
    (∀ b, cfg.include_lowercase = some b →
      (generate_password_invokeArgs cfg).include_lowercase = b) := by
  refine ⟨fun h => ?_, fun n h => ?_, fun h => ?_, fun b h => ?_,
    fun h => ?_, fun b h => ?_, fun h => ?_, fun b h => ?_,
    fun h => ?_, fun b h => ?_⟩ <;>
    simp [generate_password_invokeArgs, h]

/-- Witness for C8 at a config that omits length, numbers and lowercase and
supplies symbols and uppercase explicitly. -/
theorem generate_password_defaults_witness :
    (generate_password_invokeArgs ⟨none, some false, none, some true, none⟩).length = 16 ∧
    (generate_password_invokeArgs ⟨none, some false, none, some true, none⟩).include_symbols = false ∧
    (generate_password_invokeArgs ⟨none, some false, none, some true, none⟩).include_numbers = true ∧
    (generate_password_invokeArgs ⟨none, some false, none, some true, none⟩).include_uppercase = true ∧
    (generate_password_invokeArgs ⟨none, some false, none, some true, none⟩).include_lowercase = true :=
  ⟨(generate_password_defaults _).1 rfl,
   (generate_password_defaults _).2.2.2.1 false rfl,
   (generate_password_defaults _).2.2.2.2.1 rfl,
   (generate_password_defaults _).2.2.2.2.2.2.2.1 true rfl,
   (generate_password_defaults _).2.2.2.2.2.2.2.2.1 rfl⟩

/-- C9: `App.handleSearch` reloads the full entry list via
`get_all_entries` exactly when the query trims to the empty string (is
empty or all whitespace), and invokes `search_entries` — with the original
query — exactly when some character of the query is not whitespace. -/
theorem handleSearch_dispatch (q : List Char) :
    (handleSearch q = SearchAction.getAllEntries ↔
      ∀ c ∈ q, isJsWhitespace c) ∧
    (¬ (∀ c ∈ q, isJsWhitespace c) →
      handleSearch q = SearchAction.searchEntries q) := by
  by_cases h : jsTrim q = []
  · refine ⟨⟨fun _ => (jsTrim_eq_nil_iff q).mp h, fun _ => ?_⟩, fun hw => ?_⟩
    · simp [handleSearch, h]
    · exact absurd ((jsTrim_eq_nil_iff q).mp h) hw
  · refine ⟨⟨fun hdisp => ?_, fun hw => ?_⟩, fun _ => ?_⟩
    · exact absurd hdisp (by simp [handleSearch, h])
    · exact absurd ((jsTrim_eq_nil_iff q).mpr hw) h
    · simp [handleSearch, h]

/-- Witness for C9: a query with a non-whitespace character is dispatched
to `search_entries` unchanged. -/
theorem handleSearch_dispatch_witness :
    (¬ ∀ c ∈ [' ', 'a', ' '], isJsWhitespace c) ∧
    handleSearch [' ', 'a', ' '] = SearchAction.searchEntries [' ', 'a', ' '] :=
  ⟨by decide, (handleSearch_dispatch [' ', 'a', ' ']).2 (by decide)⟩

/-- C10: the vault-creation submit handlers never invoke `create_vault`
with a password shorter than 8 characters or one that differs from its
confirmation: `VaultSetup.handleCreateVault` sets an error message in
those cases and only otherwise invokes `create_vault` with the chosen path
and password, and `PasswordModal.handleSubmit` (rendered with
`minLength = 8` in the create flow) only delivers passwords of length at
least 8. -/
theorem handleCreateVault_gate :
    (∀ d : CreateVaultData,
      ((d.masterPassword.length < 8 ∨ d.masterPassword ≠ d.confirmPassword) →
        ∃ msg, handleCreateVault d = VaultSetupAction.setErrorMsg msg) ∧
      (∀ p pw, handleCreateVault d = VaultSetupAction.invokeCreateVault p pw →
        8 ≤ d.masterPassword.length ∧ d.masterPassword = d.confirmPassword ∧
        p = d.path ∧ pw = d.masterPassword)) ∧
    (∀ pw res, passwordModal_handleSubmit 8 pw = some res →
      8 ≤ pw.length ∧ res = pw) := by
  constructor
  · intro d
    constructor
    · intro hbad
      unfold handleCreateVault
      by_cases hm : d.masterPassword = d.confirmPassword
      · rcases hbad with hlen | hne
        · exact ⟨"Password must be at least 8 characters long",
            by rw [if_neg (fun hcon => hcon hm), if_pos hlen]⟩
        · exact absurd hm hne
      · exact ⟨"Passwords do not match", by rw [if_pos hm]⟩
    · intro p pw hcall
      unfold handleCreateVault at hcall
      by_cases hm : d.masterPassword = d.confirmPassword
      · by_cases hlen : d.masterPassword.length < 8
        · rw [if_neg (fun hcon => hcon hm), if_pos hlen] at hcall
          exact absurd hcall (by simp)
        · rw [if_neg (fun hcon => hcon hm), if_neg hlen] at hcall
          simp only [VaultSetupAction.invokeCreateVault.injEq] at hcall
          exact ⟨Nat.le_of_not_lt hlen, hm, hcall.1.symm, hcall.2.symm⟩
      · rw [if_pos hm] at hcall
        exact absurd hcall (by simp)
  · intro pw res hsub
    unfold passwordModal_handleSubmit at hsub
    by_cases hlen : pw.length < 8
    · rw [if_pos hlen] at hsub
      exact absurd hsub (by simp)
    · rw [if_neg hlen] at hsub
      simp only [Option.some.injEq] at hsub
      exact ⟨Nat.le_of_not_lt hlen, hsub.symm⟩

/-- Witness for C10: a five-character password is rejected with an error
message, and an eight-character matching submission passes the modal
gate. -/
theorem handleCreateVault_gate_witness :
    (("short" : String).length < 8 ∨
      ("short" : String) ≠ ("short" : String)) ∧
    (∃ msg, handleCreateVault ⟨"/tmp/v.enc", "short", "short", false⟩ =
      VaultSetupAction.setErrorMsg msg) ∧
    (passwordModal_handleSubmit 8 "longpass" = some "longpass" ∧
      8 ≤ ("longpass" : String).length) :=
  ⟨Or.inl (by decide),
   (handleCreateVault_gate.1 ⟨"/tmp/v.enc", "short", "short", false⟩).1
     (Or.inl (by decide)),
   by decide,
   (handleCreateVault_gate.2 "longpass" "longpass" (by decide)).1⟩

/-- Reconstructing from two shares taken at distinct x-coordinates
recovers the secret bytes. -/
theorem reconstruct_pair (secret : List Nat) (coeffs : List ShareField)
    (x1 x2 : ShareField) (hx : x1 ≠ x2)
    (hlen : coeffs.length = secret.length)
    (hb : ∀ b ∈ secret, b < 257) :
    reconstruct [shareAt secret coeffs x1, shareAt secret coeffs x2] =
      Except.ok secret := by
  show (if (shareAt secret coeffs x1).x = (shareAt secret coeffs x2).x then
      Except.error ShamirError.insufficientShares
    else Except.ok
      ((List.zipWith
        (fun y1 y2 => lagrange0 (shareAt secret coeffs x1).x
          (shareAt secret coeffs x2).x y1 y2)
        (shareAt secret coeffs x1).ys (shareAt secret coeffs x2).ys).map
        ZMod.val)) = Except.ok secret
  simp only [shareAt]
  rw [if_neg hx]
  rw [zipWith_lagrange0_shareAt x1 x2 hx secret coeffs hlen]
  rw [map_val_map_cast secret hb]

/-- C2: for every 32-byte secret (and every draw of sharing randomness),
`reconstruct` applied to any 2 of the 3 shares produced by `split` returns
exactly the original secret, for all three choose-2 combinations, while
`reconstruct` invoked with a single share fails with `InsufficientShares`
instead of returning a value. -/
theorem split_reconstruct_threshold (secret : List Nat)
    (coeffs : List ShareField) (hs : secret.length = 32)
    (hc : coeffs.length = 32) (hb : ∀ b ∈ secret, b < 256) :
    reconstruct [(split secret coeffs).1, (split secret coeffs).2.1] =
      Except.ok secret ∧
    reconstruct [(split secret coeffs).1, (split secret coeffs).2.2] =
      Except.ok secret ∧
    reconstruct [(split secret coeffs).2.1, (split secret coeffs).2.2] =
      Except.ok secret ∧
    (∀ sh ∈ [(split secret coeffs).1, (split secret coeffs).2.1,
        (split secret coeffs).2.2],
      reconstruct [sh] = Except.error ShamirError.insufficientShares) := by
  have hlen : coeffs.length = secret.length := by rw [hs, hc]
  have hb2 : ∀ b ∈ secret, b < 257 :=
    fun b hbm => Nat.lt_succ_of_lt (hb b hbm)
  refine ⟨?_, ?_, ?_, ?_⟩
  · exact reconstruct_pair secret coeffs _ _ (by decide) hlen hb2
  · exact reconstruct_pair secret coeffs _ _ (by decide) hlen hb2
  · exact reconstruct_pair secret coeffs _ _ (by decide) hlen hb2
  · intro sh _
    rfl

/-- Witness for C2 at the concrete secret `0,1,...,31` with all sharing
coefficients 7. -/
theorem split_reconstruct_threshold_witness :
    ((List.range 32).length = 32 ∧
      (List.replicate 32 (7 : ShareField)).length = 32 ∧
      ∀ b ∈ List.range 32, b < 256) ∧
    reconstruct [(split (List.range 32) (List.replicate 32 7)).1,
        (split (List.range 32) (List.replicate 32 7)).2.1] =
      Except.ok (List.range 32) :=
  ⟨⟨by decide, by simp, by decide⟩,
   (split_reconstruct_threshold (List.range 32) (List.replicate 32 7)
     (by decide) (by simp) (by decide)).1⟩

/-- C3: for every 32-byte key, 12-byte nonce, plaintext and associated
data, decrypting the output of `encrypt` with the same key, nonce and
associated data returns the original plaintext. -/
theorem encrypt_decrypt_roundtrip (key nonce plaintext aad : List Nat)
    (hk : key.length = 32) (hn : nonce.length = 12) :
    decrypt key nonce (encrypt key nonce plaintext aad) aad =
      Except.ok plaintext := by
  unfold decrypt encrypt
  simp [ctrXor_ctrXor]

/-- Witness for C3 at a concrete key, nonce and two-byte plaintext. -/
theorem encrypt_decrypt_roundtrip_witness :
    ((List.replicate 32 1).length = 32 ∧ (List.replicate 12 2).length = 12) ∧
    decrypt (List.replicate 32 1) (List.replicate 12 2)
        (encrypt (List.replicate 32 1) (List.replicate 12 2) [10, 20] [4])
        [4] =
      Except.ok [10, 20] :=
  ⟨⟨by simp, by simp⟩,
   encrypt_decrypt_roundtrip (List.replicate 32 1) (List.replicate 12 2)
     [10, 20] [4] (by simp) (by simp)⟩

/-- C4: flipping any single bit of the ciphertext, of the nonce, or of the
tag of an encryption output makes `decrypt` fail with an authentication
error — it never returns any (altered) plaintext bytes. -/
theorem decrypt_tamper_fails (key nonce plaintext aad : List Nat)
    (i k : Nat) :
    (i < (encrypt key nonce plaintext aad).1.length → k < 8 →
      decrypt key nonce
        (flipBit (encrypt key nonce plaintext aad).1 i k,
         (encrypt key nonce plaintext aad).2) aad =
      Except.error AuthError.authFailure) ∧
    (i < nonce.length → k < 8 →
      decrypt key (flipBit nonce i k) (encrypt key nonce plaintext aad)
        aad =
      Except.error AuthError.authFailure) ∧
    (decrypt key nonce
        ((encrypt key nonce plaintext aad).1,
         (encrypt key nonce plaintext aad).2 ^^^ 2 ^ k) aad =
      Except.error AuthError.authFailure) := by
  refine ⟨fun hi _ => ?_, fun hi _ => ?_, ?_⟩
  · unfold decrypt
    rw [if_neg]
    intro htag
    have hparts := gcmTag_inj ((congrArg Prod.snd (rfl :
      encrypt key nonce plaintext aad = encrypt key nonce plaintext aad)) ▸
      htag)
    exact flipBit_ne (encrypt key nonce plaintext aad).1 i k hi
      hparts.2.2.2.symm
  · unfold decrypt
    rw [if_neg]
    intro htag
    have hparts := gcmTag_inj htag
    exact flipBit_ne nonce i k hi hparts.2.1.symm
  · unfold decrypt
    rw [if_neg]
    intro htag
    exact xor_pow_ne (encrypt key nonce plaintext aad).2 k htag

/-- Witness for C4: flipping bit 0 of the single ciphertext byte of a
concrete encryption makes decryption fail. -/
theorem decrypt_tamper_fails_witness :
    (0 < (encrypt [1] [2] [3] []).1.length ∧ 0 < 8) ∧
    decrypt [1] [2]
        (flipBit (encrypt [1] [2] [3] []).1 0 0,
         (encrypt [1] [2] [3] []).2) [] =
      Except.error AuthError.authFailure :=
  ⟨⟨by decide, by decide⟩,
   (decrypt_tamper_fails [1] [2] [3] [] 0 0).1 (by decide) (by decide)⟩

/-- The Secure Random consumption counter advances by one per save. -/
theorem saveIter_rngCounter (rng : Nat → List Nat) (st : VaultState) :
    ∀ n, (saveIter rng st n).rngCounter = st.rngCounter + n := by
  intro n
  induction n with
  | zero => rfl
  | succ m ih =>
    simp only [saveIter, save_vault]
    rw [ih]
    ring

/-- C5: `save_vault` draws the next fresh nonce from Secure Random on
every save (the `n`-th save writes `rng (counter + n)`), so as long as the
CSPRNG stream does not repeat an output, any two distinct `save_vault`
calls on the same vault write distinct nonces — a nonce is never reused
for the same key over the file's lifetime. -/
theorem save_vault_nonce_fresh (rng : Nat → List Nat) (st : VaultState)
    (hrng : Function.Injective rng) :
    (∀ n, nonceOfSave rng st n = rng (st.rngCounter + n)) ∧
    (∀ i j, i ≠ j → nonceOfSave rng st i ≠ nonceOfSave rng st j) := by
  have hfresh : ∀ n, nonceOfSave rng st n = rng (st.rngCounter + n) := by
    intro n
    unfold nonceOfSave save_vault
    simp [saveIter_rngCounter rng st n]
  refine ⟨hfresh, fun i j hij h => ?_⟩
  rw [hfresh i, hfresh j] at h
  exact hij (Nat.add_left_cancel (hrng h))

/-- Witness for C5: with the injective nonce stream `n ↦ [n]`, the first
and second saves on a concrete vault state write different nonces. -/
theorem save_vault_nonce_fresh_witness :
    Function.Injective (fun n : Nat => [n]) ∧ (0 : Nat) ≠ 1 ∧
    nonceOfSave (fun n : Nat => [n]) ⟨[1], [2], 65536, 3, 4, [7], "/v.enc", 0⟩ 0 ≠
      nonceOfSave (fun n : Nat => [n]) ⟨[1], [2], 65536, 3, 4, [7], "/v.enc", 0⟩ 1 :=
  have hinj : Function.Injective (fun n : Nat => [n]) :=
    fun a b h => by simpa using h
  ⟨hinj, by decide,
   (save_vault_nonce_fresh (fun n : Nat => [n])
     ⟨[1], [2], 65536, 3, 4, [7], "/v.enc", 0⟩ hinj).2 0 1 (by decide)⟩

/-- C6: during an atomic vault write, terminating the process after any
prefix of the operation sequence (in particular anywhere between the
temp-file write and the rename) leaves the destination exactly as it was,
and only the completed sequence replaces it — at every point the
destination holds either the old file or the complete new content, never a
partial file. -/
theorem atomic_write_crash_safe (fs : Fs) (dest tmp : String)
    (content : List Nat) (hne : tmp ≠ dest) :
    (∀ k, k < 3 →
      crashAt fs (atomicWriteOps dest tmp content) k dest = fs dest) ∧
    runOps fs (atomicWriteOps dest tmp content) dest = some content ∧
    (∀ k, k ≤ 3 →
      crashAt fs (atomicWriteOps dest tmp content) k dest = fs dest ∨
      crashAt fs (atomicWriteOps dest tmp content) k dest = some content) := by
  have hdt : ¬ dest = tmp := fun h => hne h.symm
  have h0 : crashAt fs (atomicWriteOps dest tmp content) 0 dest = fs dest :=
    rfl
  have h1 : crashAt fs (atomicWriteOps dest tmp content) 1 dest = fs dest := by
    simp [crashAt, runOps, atomicWriteOps, applyOp, hdt]
  have h2 : crashAt fs (atomicWriteOps dest tmp content) 2 dest = fs dest := by
    simp [crashAt, runOps, atomicWriteOps, applyOp, hdt]
  have h3 : crashAt fs (atomicWriteOps dest tmp content) 3 dest =
      some content := by
    simp [crashAt, runOps, atomicWriteOps, applyOp]
  refine ⟨?_, h3, ?_⟩
  · intro k hk
    interval_cases k
    · exact h0
    · exact h1
    · exact h2
  · intro k hk
    interval_cases k
    · exact Or.inl h0
    · exact Or.inl h1
    · exact Or.inl h2
    · exact Or.inr h3

/-- Witness for C6: crashing right after the temp-file write of an atomic
save leaves the previously existing vault file at the destination. -/
theorem atomic_write_crash_safe_witness :
    ("/v.enc.tmp" : String) ≠ "/v.enc" ∧
    crashAt (fun p => if p = "/v.enc" then some [9, 9] else none)
        (atomicWriteOps "/v.enc" "/v.enc.tmp" [1, 2, 3]) 1 "/v.enc" =
      (fun p : String => if p = "/v.enc" then some [9, 9] else none)
        "/v.enc" :=
  ⟨by decide,
   (atomic_write_crash_safe
     (fun p => if p = "/v.enc" then some [9, 9] else none)
     "/v.enc" "/v.enc.tmp" [1, 2, 3] (by decide)).1 1 (by decide)⟩

/-- C7: when the target path already holds a valid vault file,
`create_vault` fails with an error and the file system it returns still
holds the old file unchanged at that path — an existing vault is never
silently overwritten. -/
theorem create_vault_no_overwrite (fs : Fs) (path : String)
    (master_key salt nonce c : List Nat)
    (hc : fs path = some c) (hvalid : isValidVaultFile c = true) :
    (create_vault fs path master_key salt nonce).1 =
      Except.error VaultError.vaultExists ∧
    (create_vault fs path master_key salt nonce).2 path = some c := by
  unfold create_vault
  rw [hc]
  simp [hvalid, hc]

/-- A concrete encoded vault file used by the C7 witness. -/
def demoVaultBytes : List Nat :=
  encodeVaultFile
    ⟨1, 65536, 3, 4, List.replicate 32 0, List.replicate 12 0, [5, 6], 7⟩

/-- Witness for C7: on a file system holding `demoVaultBytes` at
`/v.enc`, `create_vault` at that path fails and leaves the bytes there. -/
theorem create_vault_no_overwrite_witness :
    ((fun p => if p = "/v.enc" then some demoVaultBytes else none) :
      Fs) "/v.enc" = some demoVaultBytes ∧
    isValidVaultFile demoVaultBytes = true ∧
    (create_vault (fun p => if p = "/v.enc" then some demoVaultBytes else none)
        "/v.enc" [1] [2] [3]).1 = Except.error VaultError.vaultExists ∧
    (create_vault (fun p => if p = "/v.enc" then some demoVaultBytes else none)
        "/v.enc" [1] [2] [3]).2 "/v.enc" = some demoVaultBytes :=
  have hfs : ((fun p => if p = "/v.enc" then some demoVaultBytes else none) :
      Fs) "/v.enc" = some demoVaultBytes := by simp
  have hv : isValidVaultFile demoVaultBytes = true := by decide
  ⟨hfs, hv,
   (create_vault_no_overwrite _ "/v.enc" [1] [2] [3] demoVaultBytes hfs hv).1,
   (create_vault_no_overwrite _ "/v.enc" [1] [2] [3] demoVaultBytes hfs hv).2⟩

end TwoPassword
